import Mathlib

/-!
Verification of the Olympic Games dashboard ETL pipeline.

This file gives a shallow embedding, over Lean lists and records, of the
pandas ETL code in `utils/cleaning.py`, `utils/merging.py`,
`pre-traitement/cleaning.py` and the re-aggregation logic of
`pages/1_Overview.py`, and proves or refutes the specified properties of
that pipeline.

Conventions of the embedding:
- a DataFrame is a `List` of records, one record per row, in row order;
- a cell that can be NaN is an `Option`;
- `pd.to_numeric(errors='coerce')` applied to a raw cell is modelled by the
  cell already being an `Option Int`;
- float arithmetic on medal ratios is modelled over `ℚ` (the quantities
  involved are exact decimals well within double precision);
- `Series.round` uses round-half-to-even, modelled by `roundHalfEven`;
- a division producing `±inf` (nonzero / 0) is modelled as `none`, while
  `0 / 0 = NaN` followed by `.fillna(0)` yields `some 0`.
-/

/-! ### Definitions -/

/-- `drop_duplicates(subset=key, keep='first')`: keep the first row for each
key value, in row order. `seen` is the accumulator of keys already kept. -/
def dedupByGo [DecidableEq κ] (key : α → κ) (seen : List κ) : List α → List α
  | [] => []
  | x :: xs =>
    if key x ∈ seen then dedupByGo key seen xs
    else x :: dedupByGo key (key x :: seen) xs

/-- `DataFrame.drop_duplicates(subset=key, keep='first')`. -/
def dedupBy [DecidableEq κ] (key : α → κ) (l : List α) : List α :=
  dedupByGo key [] l

/-- `f x ++ f y ++ ...`: concatenation of the images of `f` over a list
(the shape of a pandas many-to-many merge). -/
def concatMap (f : α → List β) : List α → List β
  | [] => []
  | x :: xs => f x ++ concatMap f xs

/-- `left.merge(right, how='left')`: every left row is kept; it is paired
with each matching right row, or with `none` when no right row matches. -/
def leftJoin (ls : List α) (rs : List β) (hit : α → β → Bool) : List (α × Option β) :=
  concatMap (fun a =>
    match rs.filter (fun b => hit a b) with
    | [] => [(a, none)]
    | ms => ms.map (fun b => (a, some b))) ls

/-- `Series.rank(method='min', ascending=False).astype(int)` of value `v`
within column `vals`: one plus the number of strictly greater entries. -/
def minRankDesc (vals : List Int) (v : Int) : Nat :=
  vals.countP (fun w => decide (v < w)) + 1

/-- Round to the nearest integer, halves to even: the rounding used by
`numpy`/`pandas` `round`. -/
def roundHalfEven (q : ℚ) : ℤ :=
  if q - (⌊q⌋ : ℚ) = 1 / 2 then (if ⌊q⌋ % 2 = 0 then ⌊q⌋ else ⌊q⌋ + 1)
  else round q

/-- `Series.round(3)`: round to three decimal places, halves to even. -/
def round3 (q : ℚ) : ℚ := (roundHalfEven (1000 * q) : ℚ) / 1000

/-- `(num / den).fillna(0).round(3)` on integer columns: `0/0` is NaN and
becomes `0`; `num/0` with `num ≠ 0` is `±inf` (`none`), which neither
`fillna(0)` nor `round` repairs. -/
def pandasRatio (num den : ℤ) : Option ℚ :=
  if den = 0 then (if num = 0 then some 0 else none)
  else some (round3 ((num : ℚ) / (den : ℚ)))

/-- A raw row of `medals_total.csv` as `clean_medals_total` sees it:
string cells may be missing, numeric cells are `none` when
`pd.to_numeric(errors='coerce')` fails on them. -/
structure RawMedalsTotalRow where
  country_code : Option String
  country : Option String
  country_long : Option String
  gold : Option Int
  silver : Option Int
  bronze : Option Int
  total : Option Int
deriving DecidableEq

/-- A cleaned row of `medals_total_cleaned.csv`. -/
structure MedalsTotalCleanRow where
  country_code : String
  country : String
  country_long : String
  gold : Int
  silver : Int
  bronze : Int
  total : Int
deriving DecidableEq

/-- `clean_medals_total` of `utils/cleaning.py`: dedup by `country_code`,
fill missing strings, coerce medal counts with `fillna(0)`, recompute the
`Total` column when it disagrees anywhere with gold+silver+bronze
(`df['Total'].equals(df['Total_calculated'])` is a whole-column check),
then drop countries with zero medals. -/
def cleanMedalsTotal (raw : List RawMedalsTotalRow) : List MedalsTotalCleanRow :=
  let dedup := dedupBy (fun r => r.country_code) raw
  let coerced : List MedalsTotalCleanRow := dedup.map (fun r =>
    { country_code := r.country_code.getD "UNK"
      country := r.country.getD "Unknown"
      country_long := r.country_long.getD (r.country.getD "Unknown")
      gold := r.gold.getD 0
      silver := r.silver.getD 0
      bronze := r.bronze.getD 0
      total := r.total.getD 0 })
  let verified :=
    if coerced.all (fun r => decide (r.total = r.gold + r.silver + r.bronze)) then coerced
    else coerced.map (fun r => { r with total := r.gold + r.silver + r.bronze })
  verified.filter (fun r => decide (0 < r.total))

/-- A raw row of `medals_total.csv` under the column schema that
`OlympicDataCleaner.clean_medals_total` manipulates (lower-cased names). -/
structure RawMedalsTotalPreRow where
  noc : Option String
  gold : Option Int
  silver : Option Int
  bronze : Option Int
  total : Option Int
deriving DecidableEq

/-- A row cleaned by `OlympicDataCleaner.clean_medals_total`. -/
structure MedalsTotalPreCleanRow where
  noc : Option String
  gold : Int
  silver : Int
  bronze : Int
  total : Int
deriving DecidableEq

/-- Python's `str.upper()` restricted to ASCII data (all NOC codes are
ASCII): uppercase every character. -/
def strUpper (s : String) : String := String.mk (s.data.map Char.toUpper)

/-- Python's `str.strip()` restricted to ASCII data: drop whitespace from
both ends. -/
def strTrim (s : String) : String :=
  String.mk (((s.data.dropWhile Char.isWhitespace).reverse.dropWhile Char.isWhitespace).reverse)

/-- `_exclude_noc`'s normalisation of a NOC cell:
`astype(str)` renders NaN as `"nan"`, then `.str.strip().str.upper()`. -/
def nocFilterKey (c : Option String) : String := strUpper (strTrim (c.getD "nan"))

/-- `OlympicDataCleaner.clean_medals_total` of `pre-traitement/cleaning.py`:
drop ISR rows, coerce the four medal columns with `fillna(0)`, and drop
rows with `total <= 0`.  The stored `total` is kept as-is: this variant
never recomputes it from gold+silver+bronze. -/
def cleanMedalsTotalPre (raw : List RawMedalsTotalPreRow) : List MedalsTotalPreCleanRow :=
  let filtered := raw.filter (fun r => nocFilterKey r.noc != "ISR")
  let coerced : List MedalsTotalPreCleanRow := filtered.map (fun r =>
    { noc := r.noc
      gold := r.gold.getD 0
      silver := r.silver.getD 0
      bronze := r.bronze.getD 0
      total := r.total.getD 0 })
  coerced.filter (fun r => decide (0 < r.total))

/-- A raw row of `nocs.csv`. -/
structure RawNocRow where
  code : Option String
  country : Option String
  country_long : Option String
  tag : Option String
  note : Option String
deriving DecidableEq

/-- A row of `nocs_cleaned.csv` as produced by `utils/cleaning.py`:
every field, including `continent`, is non-null. -/
structure NocCleanRow where
  code : String
  country : String
  country_long : String
  tag : String
  note : String
  continent : String
deriving DecidableEq

/-- The hand-maintained code-to-continent table of `clean_nocs` in
`utils/cleaning.py` (it contains `ISR -> Europe`). -/
def continentMappingUtils : List (String × String) := [
  ("ALB", "Europe"), ("AND", "Europe"), ("ARM", "Europe"), ("AUT", "Europe"), ("AZE", "Europe"),
  ("BLR", "Europe"), ("BEL", "Europe"), ("BIH", "Europe"), ("BGR", "Europe"), ("HRV", "Europe"),
  ("CYP", "Europe"), ("CZE", "Europe"), ("DEN", "Europe"), ("EST", "Europe"), ("FIN", "Europe"),
  ("FRA", "Europe"), ("GEO", "Europe"), ("GER", "Europe"), ("GRE", "Europe"), ("HUN", "Europe"),
  ("ISL", "Europe"), ("IRL", "Europe"), ("ISR", "Europe"), ("ITA", "Europe"), ("KOS", "Europe"),
  ("LAT", "Europe"), ("LIE", "Europe"), ("LTU", "Europe"), ("LUX", "Europe"), ("MLT", "Europe"),
  ("MDA", "Europe"), ("MON", "Europe"), ("MNE", "Europe"), ("NED", "Europe"), ("MKD", "Europe"),
  ("NOR", "Europe"), ("POL", "Europe"), ("POR", "Europe"), ("ROU", "Europe"), ("SMR", "Europe"),
  ("SRB", "Europe"), ("SVK", "Europe"), ("SLO", "Europe"), ("ESP", "Europe"), ("SWE", "Europe"),
  ("SUI", "Europe"), ("TUR", "Europe"), ("UKR", "Europe"), ("GBR", "Europe"),
  ("AFG", "Asia"), ("BRN", "Asia"), ("BAN", "Asia"), ("BHU", "Asia"), ("BRU", "Asia"),
  ("CAM", "Asia"), ("CHN", "Asia"), ("TPE", "Asia"), ("IND", "Asia"), ("INA", "Asia"),
  ("IRI", "Asia"), ("IRQ", "Asia"), ("JPN", "Asia"), ("JOR", "Asia"), ("KAZ", "Asia"),
  ("KOR", "Asia"), ("PRK", "Asia"), ("KUW", "Asia"), ("KGZ", "Asia"), ("LAO", "Asia"),
  ("LIB", "Asia"), ("MAS", "Asia"), ("MDV", "Asia"), ("MGL", "Asia"), ("MYA", "Asia"),
  ("NEP", "Asia"), ("OMA", "Asia"), ("PAK", "Asia"), ("PLE", "Asia"), ("PHI", "Asia"),
  ("QAT", "Asia"), ("KSA", "Asia"), ("SGP", "Asia"), ("SRI", "Asia"), ("SYR", "Asia"),
  ("TJK", "Asia"), ("THA", "Asia"), ("TLS", "Asia"), ("TKM", "Asia"), ("UAE", "Asia"),
  ("UZB", "Asia"), ("VIE", "Asia"), ("YEM", "Asia"), ("HKG", "Asia"),
  ("ALG", "Africa"), ("ANG", "Africa"), ("BEN", "Africa"), ("BOT", "Africa"), ("BUR", "Africa"),
  ("BDI", "Africa"), ("CMR", "Africa"), ("CPV", "Africa"), ("CAF", "Africa"), ("CHA", "Africa"),
  ("COM", "Africa"), ("CGO", "Africa"), ("COD", "Africa"), ("CIV", "Africa"), ("DJI", "Africa"),
  ("EGY", "Africa"), ("GEQ", "Africa"), ("ERI", "Africa"), ("SWZ", "Africa"), ("ETH", "Africa"),
  ("GAB", "Africa"), ("GAM", "Africa"), ("GHA", "Africa"), ("GUI", "Africa"), ("GBS", "Africa"),
  ("KEN", "Africa"), ("LES", "Africa"), ("LBR", "Africa"), ("LBA", "Africa"), ("MAD", "Africa"),
  ("MAW", "Africa"), ("MLI", "Africa"), ("MTN", "Africa"), ("MRI", "Africa"), ("MAR", "Africa"),
  ("MOZ", "Africa"), ("NAM", "Africa"), ("NIG", "Africa"), ("NGR", "Africa"), ("RWA", "Africa"),
  ("STP", "Africa"), ("SEN", "Africa"), ("SEY", "Africa"), ("SLE", "Africa"), ("SOM", "Africa"),
  ("RSA", "Africa"), ("SSD", "Africa"), ("SUD", "Africa"), ("TAN", "Africa"), ("TOG", "Africa"),
  ("TUN", "Africa"), ("UGA", "Africa"), ("ZAM", "Africa"), ("ZIM", "Africa"),
  ("ATG", "North America"), ("ARU", "North America"), ("BAH", "North America"), ("BAR", "North America"),
  ("BIZ", "North America"), ("BER", "North America"), ("VGB", "North America"), ("CAN", "North America"),
  ("CAY", "North America"), ("CRC", "North America"), ("CUB", "North America"), ("DMA", "North America"),
  ("DOM", "North America"), ("ESA", "North America"), ("GRN", "North America"), ("GUA", "North America"),
  ("HAI", "North America"), ("HON", "North America"), ("JAM", "North America"), ("MEX", "North America"),
  ("NCA", "North America"), ("PAN", "North America"), ("PUR", "North America"), ("SKN", "North America"),
  ("LCA", "North America"), ("VIN", "North America"), ("TTO", "North America"), ("ISV", "North America"),
  ("USA", "North America"),
  ("ARG", "South America"), ("BOL", "South America"), ("BRA", "South America"), ("CHI", "South America"),
  ("COL", "South America"), ("ECU", "South America"), ("GUY", "South America"), ("PAR", "South America"),
  ("PER", "South America"), ("SUR", "South America"), ("URU", "South America"), ("VEN", "South America"),
  ("ASA", "Oceania"), ("AUS", "Oceania"), ("COK", "Oceania"), ("FIJ", "Oceania"), ("GUM", "Oceania"),
  ("KIR", "Oceania"), ("MHL", "Oceania"), ("FSM", "Oceania"), ("NRU", "Oceania"), ("NZL", "Oceania"),
  ("PLW", "Oceania"), ("PNG", "Oceania"), ("SAM", "Oceania"), ("SOL", "Oceania"), ("TGA", "Oceania"),
  ("TUV", "Oceania"), ("VAN", "Oceania"),
  ("ROT", "Multiple"), ("IOP", "Multiple")]

/-- The code-to-continent table of `OlympicDataCleaner.clean_nocs` in
`pre-traitement/cleaning.py` (`ISR` deliberately absent). -/
def continentMappingPre : List (String × String) := [
  ("ALB", "Europe"), ("AND", "Europe"), ("ARM", "Europe"), ("AUT", "Europe"), ("AZE", "Europe"),
  ("BLR", "Europe"), ("BEL", "Europe"), ("BIH", "Europe"), ("BUL", "Europe"), ("CRO", "Europe"),
  ("CYP", "Europe"), ("CZE", "Europe"), ("DEN", "Europe"), ("EST", "Europe"), ("FIN", "Europe"),
  ("FRA", "Europe"), ("GEO", "Europe"), ("GER", "Europe"), ("GBR", "Europe"), ("GRE", "Europe"),
  ("HUN", "Europe"), ("ISL", "Europe"), ("IRL", "Europe"), ("ITA", "Europe"), ("KOS", "Europe"),
  ("LAT", "Europe"), ("LIE", "Europe"), ("LTU", "Europe"), ("LUX", "Europe"), ("MKD", "Europe"),
  ("MLT", "Europe"), ("MDA", "Europe"), ("MON", "Europe"), ("MNE", "Europe"), ("NED", "Europe"),
  ("NOR", "Europe"), ("POL", "Europe"), ("POR", "Europe"), ("ROU", "Europe"), ("SMR", "Europe"),
  ("SRB", "Europe"), ("SVK", "Europe"), ("SLO", "Europe"), ("ESP", "Europe"), ("SWE", "Europe"),
  ("SUI", "Europe"), ("TUR", "Europe"), ("UKR", "Europe"), ("RUS", "Europe"),
  ("AFG", "Asia"), ("BRN", "Asia"), ("BAN", "Asia"), ("BHU", "Asia"), ("BRU", "Asia"),
  ("CAM", "Asia"), ("CHN", "Asia"), ("TPE", "Asia"), ("HKG", "Asia"), ("IND", "Asia"),
  ("INA", "Asia"), ("IRQ", "Asia"), ("IRI", "Asia"), ("JOR", "Asia"), ("JPN", "Asia"),
  ("KAZ", "Asia"), ("KUW", "Asia"), ("KGZ", "Asia"), ("LAO", "Asia"), ("LBN", "Asia"),
  ("MAS", "Asia"), ("MDV", "Asia"), ("MGL", "Asia"), ("MYA", "Asia"), ("NEP", "Asia"),
  ("PRK", "Asia"), ("OMA", "Asia"), ("PAK", "Asia"), ("PLE", "Asia"), ("PHI", "Asia"),
  ("QAT", "Asia"), ("KOR", "Asia"), ("KSA", "Asia"), ("SGP", "Asia"), ("SRI", "Asia"),
  ("SYR", "Asia"), ("TJK", "Asia"), ("THA", "Asia"), ("TLS", "Asia"), ("TKM", "Asia"),
  ("UAE", "Asia"), ("UZB", "Asia"), ("VIE", "Asia"), ("YEM", "Asia"),
  ("ALG", "Africa"), ("ANG", "Africa"), ("BEN", "Africa"), ("BOT", "Africa"), ("BUR", "Africa"),
  ("BDI", "Africa"), ("CMR", "Africa"), ("CPV", "Africa"), ("CAF", "Africa"), ("CHA", "Africa"),
  ("COM", "Africa"), ("CGO", "Africa"), ("COD", "Africa"), ("CIV", "Africa"), ("DJI", "Africa"),
  ("EGY", "Africa"), ("GEQ", "Africa"), ("ERI", "Africa"), ("ETH", "Africa"), ("GAB", "Africa"),
  ("GAM", "Africa"), ("GHA", "Africa"), ("GUI", "Africa"), ("GBS", "Africa"), ("KEN", "Africa"),
  ("LES", "Africa"), ("LBR", "Africa"), ("LBA", "Africa"), ("MAD", "Africa"), ("MAW", "Africa"),
  ("MLI", "Africa"), ("MTN", "Africa"), ("MRI", "Africa"), ("MAR", "Africa"), ("MOZ", "Africa"),
  ("NAM", "Africa"), ("NIG", "Africa"), ("NGR", "Africa"), ("RWA", "Africa"), ("STP", "Africa"),
  ("SEN", "Africa"), ("SEY", "Africa"), ("SLE", "Africa"), ("SOM", "Africa"), ("RSA", "Africa"),
  ("SSD", "Africa"), ("SUD", "Africa"), ("TAN", "Africa"), ("TOG", "Africa"), ("TUN", "Africa"),
  ("UGA", "Africa"), ("ZAM", "Africa"), ("ZIM", "Africa"),
  ("ATG", "North America"), ("BAH", "North America"), ("BAR", "North America"), ("BIZ", "North America"),
  ("BER", "North America"), ("CAN", "North America"), ("CAY", "North America"), ("CRC", "North America"),
  ("CUB", "North America"), ("DMA", "North America"), ("DOM", "North America"), ("SLV", "North America"),
  ("GRN", "North America"), ("GUA", "North America"), ("HAI", "North America"), ("HON", "North America"),
  ("JAM", "North America"), ("MEX", "North America"), ("NCA", "North America"), ("PAN", "North America"),
  ("PUR", "North America"), ("SKN", "North America"), ("LCA", "North America"), ("VIN", "North America"),
  ("TTO", "North America"), ("USA", "North America"), ("ISV", "North America"),
  ("ARG", "South America"), ("ARU", "South America"), ("BOL", "South America"), ("BRA", "South America"),
  ("CHI", "South America"), ("COL", "South America"), ("ECU", "South America"), ("GUY", "South America"),
  ("PAR", "South America"), ("PER", "South America"), ("SUR", "South America"), ("URU", "South America"),
  ("VEN", "South America"),
  ("ASA", "Oceania"), ("AUS", "Oceania"), ("COK", "Oceania"), ("FIJ", "Oceania"), ("GUM", "Oceania"),
  ("KIR", "Oceania"), ("MHL", "Oceania"), ("FSM", "Oceania"), ("NRU", "Oceania"), ("NZL", "Oceania"),
  ("PLW", "Oceania"), ("PNG", "Oceania"), ("SAM", "Oceania"), ("SOL", "Oceania"), ("TGA", "Oceania"),
  ("TUV", "Oceania"), ("VAN", "Oceania")]

/-- `clean_nocs` of `utils/cleaning.py`: dedup by `code`, fill missing
values, then `df['continent'] = df['code'].map(continent_mapping).fillna('Unknown')`. -/
def cleanNocsUtils (raw : List RawNocRow) : List NocCleanRow :=
  (dedupBy (fun r => r.code) raw).map (fun r =>
    let code := r.code.getD "UNK"
    let country := r.country.getD "Unknown"
    { code := code
      country := country
      country_long := r.country_long.getD country
      tag := r.tag.getD ""
      note := r.note.getD ""
      continent := (continentMappingUtils.lookup code).getD "Unknown" })

/-- A NOC row cleaned by `OlympicDataCleaner.clean_nocs`: no `fillna`, so
every field stays nullable, including the mapped `continent`. -/
structure NocPreCleanRow where
  code : Option String
  country : Option String
  country_long : Option String
  tag : Option String
  note : Option String
  continent : Option String
deriving DecidableEq

/-- `OlympicDataCleaner.clean_nocs` of `pre-traitement/cleaning.py`:
drop rows whose `code` normalises to `ISR`, dedup by `code`, strip
whitespace from string cells, then `df['continent'] = df['code'].map(continent_mapping)`
with no fallback. -/
def cleanNocsPre (raw : List RawNocRow) : List NocPreCleanRow :=
  let filtered := raw.filter (fun r => nocFilterKey r.code != "ISR")
  (dedupBy (fun r => r.code) filtered).map (fun r =>
    let code := r.code.map strTrim
    { code := code
      country := r.country.map strTrim
      country_long := r.country_long.map strTrim
      tag := r.tag.map strTrim
      note := r.note.map strTrim
      continent := code.bind (fun c => continentMappingPre.lookup c) })

/-- A sample raw NOC row for the ISR code. -/
def isrRawRow : RawNocRow :=
  { code := some "ISR", country := some "Israel", country_long := some "Israel",
    tag := none, note := none }

/-- A raw medals_total row whose stored total (5) disagrees with
gold+silver+bronze = 1. -/
def badTotalRawUtils : RawMedalsTotalRow :=
  { country_code := some "FRA", country := some "France", country_long := some "France",
    gold := some 1, silver := some 0, bronze := some 0, total := some 5 }

/-- A raw medals_total row, in the pre-traitement schema, whose stored
total (5) disagrees with gold+silver+bronze = 1. -/
def badTotalRawPre : RawMedalsTotalPreRow :=
  { noc := some "FRA", gold := some 1, silver := some 0, bronze := some 0, total := some 5 }

/-- A row of `medals_total_enriched.csv`.  The `code` and `continent`
columns come from the left join with `nocs_cleaned` and are null when the
country code has no NOC match. -/
structure MedalsTotalEnrichedRow where
  country_code : String
  country : String
  country_long : String
  gold : Int
  silver : Int
  bronze : Int
  total : Int
  code : Option String
  continent : Option String
  gold_ratio : Option ℚ
  silver_ratio : Option ℚ
  bronze_ratio : Option ℚ
  medal_quality_score : Int
  rank_by_total : Nat
  rank_by_gold : Nat
  rank_by_quality : Nat
deriving DecidableEq

/-- One output row of the `medals_total.merge(nocs, how='left')` step of
`create_medals_total_enriched`, before ranks are filled in. -/
def mtBase (p : MedalsTotalCleanRow × Option NocCleanRow) : MedalsTotalEnrichedRow :=
  { country_code := p.1.country_code
    country := p.1.country
    country_long := p.1.country_long
    gold := p.1.gold
    silver := p.1.silver
    bronze := p.1.bronze
    total := p.1.total
    code := p.2.map (fun n => n.code)
    continent := p.2.map (fun n => n.continent)
    gold_ratio := pandasRatio p.1.gold p.1.total
    silver_ratio := pandasRatio p.1.silver p.1.total
    bronze_ratio := pandasRatio p.1.bronze p.1.total
    medal_quality_score := p.1.gold * 3 + p.1.silver * 2 + p.1.bronze * 1
    rank_by_total := 0
    rank_by_gold := 0
    rank_by_quality := 0 }

/-- `create_medals_total_enriched` of `utils/merging.py`: left join with the
cleaned NOC table on `country_code = code`, ratios `medal / Total` with
`.fillna(0).round(3)`, quality score `3g + 2s + 1b`, three min-method
descending ranks, then sort by `Total` descending. -/
def createMedalsTotalEnriched (ct : List MedalsTotalCleanRow) (nocs : List NocCleanRow) :
    List MedalsTotalEnrichedRow :=
  let base := (leftJoin ct nocs (fun r n => n.code == r.country_code)).map mtBase
  let ranked := base.map (fun r =>
    { r with
      rank_by_total := minRankDesc (base.map (fun x => x.total)) r.total
      rank_by_gold := minRankDesc (base.map (fun x => x.gold)) r.gold
      rank_by_quality := minRankDesc (base.map (fun x => x.medal_quality_score)) r.medal_quality_score })
  List.insertionSort (fun a b => b.total ≤ a.total) ranked

/-- The single enriched row obtained from the sample mismatched raw table
and an empty NOC table. -/
def enrichedSampleRow : MedalsTotalEnrichedRow :=
  { country_code := "FRA", country := "France", country_long := "France",
    gold := 1, silver := 0, bronze := 0, total := 1, code := none, continent := none,
    gold_ratio := some 1, silver_ratio := some 0, bronze_ratio := some 0,
    medal_quality_score := 3, rank_by_total := 1, rank_by_gold := 1, rank_by_quality := 1 }

/-- A row of `medals_cleaned.csv` (all string fields already filled by
`clean_medals`; `code` is the athlete code cast to string). -/
structure CleanMedalRow where
  name : String
  gender : String
  country_code : String
  country : String
  country_long : String
  discipline : String
  event : String
  medal_type : String
  medal_date : Option Int
  medal_code : Option Int
  code : String
deriving DecidableEq

/-- The athlete columns selected by `create_medals_enriched`:
`athletes[['code', 'age', 'height', 'weight', 'birth_place']]`. -/
structure AthleteJoinRow where
  code : String
  age : Option Int
  height : Option ℚ
  weight : Option ℚ
  birth_place : Option String
deriving DecidableEq

/-- A row of `medals_enriched.csv`. -/
structure MedalEnrichedRow where
  name : String
  gender : String
  country_code : String
  country : String
  country_long : String
  discipline : String
  event : String
  medal_type : String
  medal_date : Option Int
  medal_code : Option Int
  code : String
  continent : Option String
  age : Option Int
  height : Option ℚ
  weight : Option ℚ
  birth_place : Option String
  medal_rank : Option Nat
  is_gold : Nat
  is_silver : Nat
  is_bronze : Nat
deriving DecidableEq

/-- The dictionary `{'Gold': 1, 'Silver': 2, 'Bronze': 3}` used for
`medal_rank`. -/
def medalRankMap : List (String × Nat) := [("Gold", 1), ("Silver", 2), ("Bronze", 3)]

/-- `create_medals_enriched` of `utils/merging.py`: left join with the
cleaned NOC table on `country_code = code` for the continent, left join
with the athletes table on the athlete `code`, then derive `medal_rank`
and the three indicator flags.  No `fillna` is applied after either join. -/
def createMedalsEnriched (medals : List CleanMedalRow) (nocs : List NocCleanRow)
    (athletes : List AthleteJoinRow) : List MedalEnrichedRow :=
  let j1 := leftJoin medals nocs (fun m n => n.code == m.country_code)
  let j2 := leftJoin j1 athletes (fun p a => a.code == p.1.code)
  j2.map (fun q =>
    { name := q.1.1.name
      gender := q.1.1.gender
      country_code := q.1.1.country_code
      country := q.1.1.country
      country_long := q.1.1.country_long
      discipline := q.1.1.discipline
      event := q.1.1.event
      medal_type := q.1.1.medal_type
      medal_date := q.1.1.medal_date
      medal_code := q.1.1.medal_code
      code := q.1.1.code
      continent := q.1.2.map (fun n => n.continent)
      age := q.2.bind (fun a => a.age)
      height := q.2.bind (fun a => a.height)
      weight := q.2.bind (fun a => a.weight)
      birth_place := q.2.bind (fun a => a.birth_place)
      medal_rank := medalRankMap.lookup q.1.1.medal_type
      is_gold := if q.1.1.medal_type = "Gold" then 1 else 0
      is_silver := if q.1.1.medal_type = "Silver" then 1 else 0
      is_bronze := if q.1.1.medal_type = "Bronze" then 1 else 0 })

/-- A medal row whose country code XYZ matches no NOC row. -/
def xyzMedalRow : CleanMedalRow :=
  { name := "Some Athlete", gender := "Male", country_code := "XYZ", country := "Xyzland",
    country_long := "Xyzland", discipline := "Judo", event := "Judo Men -60kg",
    medal_type := "Gold Medal", medal_date := none, medal_code := none, code := "1001" }

/-- A raw NOC row for France. -/
def fraRawNoc : RawNocRow :=
  { code := some "FRA", country := some "France", country_long := some "France",
    tag := none, note := none }

/-- A medal row for France. -/
def fraMedalRow : CleanMedalRow :=
  { name := "Some Athlete", gender := "Male", country_code := "FRA", country := "France",
    country_long := "France", discipline := "Judo", event := "Judo Men -60kg",
    medal_type := "Gold Medal", medal_date := none, medal_code := none, code := "1001" }

/-- The sidebar filter state of the Overview page: the three multiselects
and the three medal-type checkboxes. -/
structure Filters where
  countries : List String
  continents : List String
  sports : List String
  show_gold : Bool
  show_silver : Bool
  show_bronze : Bool
deriving DecidableEq

/-- `apply_filters(df, 'medals_total')`: filter by selected countries via
the `country` column and by selected continents via the `continent` column;
an empty selection applies no filter; NaN continents match nothing. -/
def applyFiltersMedalsTotal (f : Filters) (df : List MedalsTotalEnrichedRow) :
    List MedalsTotalEnrichedRow :=
  let d1 := if f.countries ≠ [] then df.filter (fun r => f.countries.contains r.country) else df
  if f.continents ≠ [] then
    d1.filter (fun r =>
      match r.continent with
      | some c => f.continents.contains c
      | none => false)
  else d1

/-- `apply_filters(df, 'medals')` on `medals_enriched`: country filter on
`country`, continent filter on `continent`, sport filter on `discipline`
(no `sport` column exists), and the medal-type toggle filter on
`medal_type` with the labels 'Gold Medal'/'Silver Medal'/'Bronze Medal'
(no filter when all three toggles are off). -/
def applyFiltersMedals (f : Filters) (df : List MedalEnrichedRow) : List MedalEnrichedRow :=
  let d1 := if f.countries ≠ [] then df.filter (fun r => f.countries.contains r.country) else df
  let d2 := if f.continents ≠ [] then
    d1.filter (fun r =>
      match r.continent with
      | some c => f.continents.contains c
      | none => false)
  else d1
  let d3 := if f.sports ≠ [] then d2.filter (fun r => f.sports.contains r.discipline) else d2
  let medalTypes := (if f.show_gold then ["Gold Medal"] else []) ++
    (if f.show_silver then ["Silver Medal"] else []) ++
    (if f.show_bronze then ["Bronze Medal"] else [])
  if medalTypes ≠ [] then d3.filter (fun r => medalTypes.contains r.medal_type) else d3

/-- Lexicographic less-or-equal on equal-length string tuples, the order
`pivot_table` sorts its index keys by. -/
def strLexLeB : List String → List String → Bool
  | [], _ => true
  | _ :: _, [] => false
  | a :: as, b :: bs => if a < b then true else if b < a then false else strLexLeB as bs

/-- The group key of the re-aggregation
`groupby(['country_code', 'country', 'country_long', 'continent', 'medal_type'])`
without the pivoted `medal_type` level.  Pandas drops rows whose key
contains NaN, so only rows with a non-null continent form groups. -/
structure CountryKey where
  country_code : String
  country : String
  country_long : String
  continent : String
deriving DecidableEq

/-- The sort key of a `CountryKey` as an ordered string tuple. -/
def countryKeyList (k : CountryKey) : List String :=
  [k.country_code, k.country, k.country_long, k.continent]

/-- `pivot_table`'s index order on country keys. -/
def countryKeyLe (a b : CountryKey) : Prop :=
  strLexLeB (countryKeyList a) (countryKeyList b) = true

instance : DecidableRel countryKeyLe := fun a b => by
  unfold countryKeyLe
  infer_instance

/-- The group key of a `medals_enriched` row, `none` when the continent is
NaN (pandas `groupby` drops such rows). -/
def medalGroupKey (r : MedalEnrichedRow) : Option CountryKey :=
  r.continent.map (fun c =>
    { country_code := r.country_code, country := r.country,
      country_long := r.country_long, continent := c })

/-- The aggregated output row of the re-aggregation for one country key. -/
def reaggRow (rows : List MedalEnrichedRow) (k : CountryKey) : MedalsTotalEnrichedRow :=
  let cnt := fun (t : String) =>
    (rows.countP (fun r => decide (medalGroupKey r = some k ∧ r.medal_type = t)) : Int)
  let g := cnt "Gold Medal"
  let s := cnt "Silver Medal"
  let b := cnt "Bronze Medal"
  { country_code := k.country_code
    country := k.country
    country_long := k.country_long
    gold := g
    silver := s
    bronze := b
    total := g + s + b
    code := some k.country_code
    continent := some k.continent
    gold_ratio := pandasRatio g (g + s + b)
    silver_ratio := pandasRatio s (g + s + b)
    bronze_ratio := pandasRatio b (g + s + b)
    medal_quality_score := g * 3 + s * 2 + b * 1
    rank_by_total := 0
    rank_by_gold := 0
    rank_by_quality := 0 }

/-- The re-aggregation core of `get_filtered_medals_total` (lines 213-274
of `pages/1_Overview.py`): group the filtered medal rows by country key,
pivot the medal-type counts, recompute total, ratios, quality score and the
three min-method descending ranks from scratch, and sort by total. -/
def reaggregateMedals (rows : List MedalEnrichedRow) : List MedalsTotalEnrichedRow :=
  let keys := List.insertionSort countryKeyLe (dedupBy id (rows.filterMap medalGroupKey))
  let base := keys.map (reaggRow rows)
  let ranked := base.map (fun r =>
    { r with
      rank_by_total := minRankDesc (base.map (fun x => x.total)) r.total
      rank_by_gold := minRankDesc (base.map (fun x => x.gold)) r.gold
      rank_by_quality := minRankDesc (base.map (fun x => x.medal_quality_score)) r.medal_quality_score })
  List.insertionSort (fun a b => b.total ≤ a.total) ranked

/-- `get_filtered_medals_total` of `pages/1_Overview.py`: with no sport
filter it returns the statically enriched medals-total table (with the
country/continent filters applied); otherwise it re-aggregates the filtered
`medals_enriched` rows from scratch, returning the empty table when no
medal row survives the filters. -/
def getFilteredMedalsTotal (f : Filters) (medals : List MedalEnrichedRow)
    (medalsTotal : List MedalsTotalEnrichedRow) : List MedalsTotalEnrichedRow :=
  let filteredMedals := applyFiltersMedals f medals
  if f.sports = [] then applyFiltersMedalsTotal f medalsTotal
  else if filteredMedals = [] then []
  else reaggregateMedals filteredMedals

/-- The empty filter state: nothing selected, all medal types shown. -/
def noFilters : Filters :=
  { countries := [], continents := [], sports := [],
    show_gold := true, show_silver := true, show_bronze := true }

/-- The USA gold medal row of the concrete three-row scenario. -/
def usaGoldRow : MedalEnrichedRow :=
  { name := "Athlete One", gender := "Male", country_code := "USA", country := "United States",
    country_long := "United States of America", discipline := "Swimming",
    event := "100m Freestyle", medal_type := "Gold Medal", medal_date := none,
    medal_code := none, code := "1", continent := some "North America", age := none,
    height := none, weight := none, birth_place := none, medal_rank := none,
    is_gold := 0, is_silver := 0, is_bronze := 0 }

/-- The USA silver medal row of the concrete three-row scenario. -/
def usaSilverRow : MedalEnrichedRow :=
  { usaGoldRow with
    name := "Athlete Two", event := "200m Freestyle",
    medal_type := "Silver Medal", code := "2" }

/-- The FRA gold medal row of the concrete three-row scenario. -/
def fraGoldRow : MedalEnrichedRow :=
  { usaGoldRow with
    name := "Athlete Three", country_code := "FRA", country := "France",
    country_long := "France", continent := some "Europe", medal_type := "Gold Medal",
    code := "3" }

/-- The columns of `medalists_enriched.csv` used by
`create_athlete_medals_summary`: the five group-by keys and the pivoted
`medal_type`. `continent` comes from a left join and may be null. -/
structure MedalistRow where
  name : String
  country_code : String
  country : String
  gender : String
  continent : Option String
  medal_type : String
deriving DecidableEq

/-- The athlete columns selected for the summary merge:
`athletes[['name', 'code', 'age', 'disciplines']]`. -/
structure AthleteInfoRow where
  name : String
  code : String
  age : Option Int
  disciplines : String
deriving DecidableEq

/-- The group key of
`groupby(['name', 'country_code', 'country', 'gender', 'continent'])`. -/
structure AthleteKey where
  name : String
  country_code : String
  country : String
  gender : String
  continent : String
deriving DecidableEq

/-- The sort key of an `AthleteKey` as an ordered string tuple. -/
def athleteKeyList (k : AthleteKey) : List String :=
  [k.name, k.country_code, k.country, k.gender, k.continent]

/-- The group-by index order on athlete keys. -/
def athleteKeyLe (a b : AthleteKey) : Prop :=
  strLexLeB (athleteKeyList a) (athleteKeyList b) = true

instance : DecidableRel athleteKeyLe := fun a b => by
  unfold athleteKeyLe
  infer_instance

/-- A row of `athlete_medals_summary.csv`. -/
structure AthleteSummaryRow where
  name : String
  country_code : String
  country : String
  gender : String
  continent : String
  gold : Nat
  silver : Nat
  bronze : Nat
  total_medals : Nat
  medal_quality_score : Nat
  code : Option String
  age : Option Int
  disciplines : Option String
  rank : Nat
deriving DecidableEq

/-- The group key of a medalist row; `none` when the continent is NaN
(pandas `groupby` drops such rows). -/
def medalistKey (r : MedalistRow) : Option AthleteKey :=
  r.continent.map (fun c =>
    { name := r.name, country_code := r.country_code, country := r.country,
      gender := r.gender, continent := c })

/-- The sort order `sort_values(['total_medals', 'medal_quality_score'],
ascending=[False, False])`: descending lexicographic on (total, quality). -/
def summaryRel (a b : AthleteSummaryRow) : Prop :=
  b.total_medals < a.total_medals ∨
    (a.total_medals = b.total_medals ∧ b.medal_quality_score ≤ a.medal_quality_score)

instance : DecidableRel summaryRel := fun a b => by
  unfold summaryRel
  infer_instance

instance : IsTotal AthleteSummaryRow summaryRel := by
  constructor
  intro a b
  unfold summaryRel
  omega

instance : IsTrans AthleteSummaryRow summaryRel := by
  constructor
  intro a b c hab hbc
  unfold summaryRel at *
  omega

/-- `df['rank'] = range(1, len(df) + 1)`: assign positional ranks `n`,
`n+1`, ... down the sorted rows. -/
def assignRanks (n : Nat) : List AthleteSummaryRow → List AthleteSummaryRow
  | [] => []
  | r :: rs => { r with rank := n } :: assignRanks (n + 1) rs

/-- The aggregated (pre-merge, pre-rank) summary row for one athlete key. -/
def athleteAggRow (medalists : List MedalistRow) (k : AthleteKey) : AthleteSummaryRow :=
  let cnt := fun (t : String) =>
    medalists.countP (fun r => decide (medalistKey r = some k ∧ r.medal_type = t))
  let g := cnt "Gold Medal"
  let s := cnt "Silver Medal"
  let b := cnt "Bronze Medal"
  { name := k.name, country_code := k.country_code, country := k.country,
    gender := k.gender, continent := k.continent,
    gold := g, silver := s, bronze := b,
    total_medals := g + s + b,
    medal_quality_score := g * 3 + s * 2 + b * 1,
    code := none, age := none, disciplines := none, rank := 0 }

/-- `create_athlete_medals_summary` of `utils/merging.py`: pivot medal-type
counts per (name, country_code, country, gender, continent), derive total
and quality score, left-merge athlete info on `name`, sort by
(total desc, quality desc) and assign the positional ranks 1..N. -/
def createAthleteMedalsSummary (medalists : List MedalistRow)
    (athletes : List AthleteInfoRow) : List AthleteSummaryRow :=
  let keys := List.insertionSort athleteKeyLe (dedupBy id (medalists.filterMap medalistKey))
  let agg := keys.map (athleteAggRow medalists)
  let merged := (leftJoin agg athletes (fun r a => a.name == r.name)).map (fun p =>
    { p.1 with
      code := p.2.map (fun a => a.code)
      age := p.2.bind (fun a => a.age)
      disciplines := p.2.map (fun a => a.disciplines) })
  assignRanks 1 (List.insertionSort summaryRel merged)

/-- A gold medalist named Alice. -/
def aliceMedalist : MedalistRow :=
  { name := "Alice", country_code := "FRA", country := "France", gender := "Female",
    continent := some "Europe", medal_type := "Gold Medal" }

/-- A gold medalist named Berta with the same medal haul as Alice. -/
def bertaMedalist : MedalistRow :=
  { aliceMedalist with name := "Berta" }

/-- The ten raw table entities of the cleaning stage. -/
inductive Entity
  | athletes
  | coaches
  | events
  | medalists
  | medals
  | medalsTotal
  | nocs
  | schedules
  | teams
  | venues
deriving DecidableEq

/-- The order in which `main` of `utils/cleaning.py` runs the per-entity
cleaners. -/
def utilsCleanOrder : List Entity :=
  [.athletes, .coaches, .events, .medalists, .medals, .medalsTotal,
   .nocs, .schedules, .teams, .venues]

/-- The order in which `load_all_data` of `pre-traitement/cleaning.py`
runs the per-entity cleaners. -/
def loadOrder : List Entity :=
  [.athletes, .medals, .medalsTotal, .medalists, .nocs, .events,
   .schedules, .venues, .coaches, .teams]

/-- `main` of `utils/cleaning.py` over the given file availability: each
cleaner is called in sequence with no exception handling, so a missing
raw file raises out of `main` at that entity and none of the later
cleaners run.  Returns the cleaned entities, or the entity at which the
run aborted. -/
def mainUtilsGo (avail : Entity → Bool) : List Entity → Except Entity (List Entity)
  | [] => .ok []
  | e :: es => if avail e then (mainUtilsGo avail es).map (fun l => e :: l) else .error e

/-- `main` of `utils/cleaning.py`: clean all ten entities in order. -/
def mainUtils (avail : Entity → Bool) : Except Entity (List Entity) :=
  mainUtilsGo avail utilsCleanOrder

/-- `load_all_data` of `pre-traitement/cleaning.py` over the given file
availability: each cleaner runs inside its own try/except, so a failure
only records a warning for that entity and the loop continues.
`clean_schedules` catches the missing file itself and returns an empty
table, so the schedules entry always loads.  Returns the pair
(loaded entities, entities that produced a warning). -/
def loadAllDataGo (avail : Entity → Bool) : List Entity → List Entity × List Entity
  | [] => ([], [])
  | e :: es =>
    let rest := loadAllDataGo avail es
    if avail e || e == Entity.schedules then (e :: rest.1, rest.2)
    else (rest.1, e :: rest.2)

/-- `load_all_data` of `pre-traitement/cleaning.py`. -/
def loadAllData (avail : Entity → Bool) : List Entity × List Entity :=
  loadAllDataGo avail loadOrder

/-- File availability with only `athletes.csv` missing. -/
def availNoAthletes : Entity → Bool := fun e => e != Entity.athletes

/-- Day number of a Gregorian calendar date (days since 0000-03-01, valid
for years from 1 on), the standard civil-from-days formula; it models the
day arithmetic of `pd.Timestamp` subtraction. -/
def dayNumber (y m d : Nat) : Nat :=
  let yAdj := if m ≤ 2 then y - 1 else y
  let mp := (m + 9) % 12
  yAdj * 365 + yAdj / 4 - yAdj / 100 + yAdj / 400 + (153 * mp + 2) / 5 + d - 1

/-- `(olympics_date - birth_date).dt.days` with the fixed reference date
2024-07-26. -/
def ageDays (y m d : Nat) : Int := (dayNumber 2024 7 26 : Int) - (dayNumber y m d : Int)

/-- The age column of `clean_athletes` in `utils/cleaning.py`:
`((olympics_date - birth_date).dt.days / 365.25).round(0)`. -/
def ageUtils (y m d : Nat) : Int := roundHalfEven ((ageDays y m d : ℚ) / (365.25 : ℚ))

/-- The age column of `OlympicDataCleaner.clean_athletes` in
`pre-traitement/cleaning.py`: the same formula,
`((olympic_date - birth_date).dt.days / 365.25).round(0)`. -/
def agePre (y m d : Nat) : Int := roundHalfEven ((ageDays y m d : ℚ) / (365.25 : ℚ))

/-! ### Lemmas and theorems -/

lemma mem_concatMap {f : α → List β} {b : β} {l : List α} :
    b ∈ concatMap f l ↔ ∃ a ∈ l, b ∈ f a := by
  induction l with
  | nil => simp [concatMap]
  | cons x xs ih => simp [concatMap, ih]

lemma cleanMedalsTotal_invariant {raw : List RawMedalsTotalRow} {r : MedalsTotalCleanRow}
    (h : r ∈ cleanMedalsTotal raw) :
    r.total = r.gold + r.silver + r.bronze ∧ 0 < r.total := by
  unfold cleanMedalsTotal at h
  rw [List.mem_filter] at h
  obtain ⟨hmem, hpos⟩ := h
  refine ⟨?_, by simpa using hpos⟩
  split at hmem
  case isTrue hall =>
    have := List.all_eq_true.mp hall r hmem
    simpa using this
  case isFalse =>
    rw [List.mem_map] at hmem
    obtain ⟨s, _, rfl⟩ := hmem
    rfl

lemma dedupByGo_mem_key [DecidableEq κ] {key : α → κ} {k : κ} :
    ∀ {l : List α} {seen : List κ}, k ∉ seen → (∃ r ∈ l, key r = k) →
      ∃ r ∈ dedupByGo key seen l, key r = k := by
  intro l
  induction l with
  | nil => intro seen _ h; simp at h
  | cons x xs ih =>
    intro seen hk h
    obtain ⟨r, hr, hkey⟩ := h
    unfold dedupByGo
    by_cases hx : key x ∈ seen
    · rw [if_pos hx]
      rcases List.mem_cons.mp hr with rfl | hr2
      · exact absurd (hkey ▸ hx) hk
      · exact ih hk ⟨r, hr2, hkey⟩
    · rw [if_neg hx]
      by_cases hxk : key x = k
      · exact ⟨x, List.mem_cons_self .., hxk⟩
      · rcases List.mem_cons.mp hr with rfl | hr2
        · exact absurd hkey hxk
        · have hk2 : k ∉ key x :: seen := by
            simp only [List.mem_cons, not_or]
            exact ⟨fun h2 => hxk h2.symm, hk⟩
          obtain ⟨s, hs, hks⟩ := ih hk2 ⟨r, hr2, hkey⟩
          exact ⟨s, List.mem_cons_of_mem _ hs, hks⟩

lemma dedupBy_mem_key [DecidableEq κ] {key : α → κ} {k : κ} {l : List α}
    (h : ∃ r ∈ l, key r = k) : ∃ r ∈ dedupBy key l, key r = k :=
  dedupByGo_mem_key (List.not_mem_nil k) h

lemma dedupByGo_subset [DecidableEq κ] {key : α → κ} :
    ∀ {l : List α} {seen : List κ} {r : α}, r ∈ dedupByGo key seen l → r ∈ l := by
  intro l
  induction l with
  | nil => intro seen r h; simp [dedupByGo] at h
  | cons x xs ih =>
    intro seen r h
    unfold dedupByGo at h
    by_cases hx : key x ∈ seen
    · rw [if_pos hx] at h
      exact List.mem_cons_of_mem _ (ih h)
    · rw [if_neg hx] at h
      rcases List.mem_cons.mp h with rfl | h2
      · exact List.mem_cons_self ..
      · exact List.mem_cons_of_mem _ (ih h2)

lemma dedupBy_subset [DecidableEq κ] {key : α → κ} {l : List α} {r : α}
    (h : r ∈ dedupBy key l) : r ∈ l :=
  dedupByGo_subset h

/-- C9: the two cleaning modules treat NOC code ISR inconsistently: on any
raw input containing an ISR row, `clean_nocs` of `utils/cleaning.py` emits
an ISR row with continent Europe, while the `OlympicDataCleaner` variant
emits no ISR row at all. -/
theorem nocs_isr_divergence (raw : List RawNocRow) (h : ∃ r ∈ raw, r.code = some "ISR") :
    (∃ n ∈ cleanNocsUtils raw, n.code = "ISR" ∧ n.continent = "Europe") ∧
    (∀ n ∈ cleanNocsPre raw, n.code ≠ some "ISR") := by
  constructor
  · have hdedup : ∃ r ∈ dedupBy (fun r : RawNocRow => r.code) raw, r.code = some "ISR" :=
      dedupBy_mem_key h
    obtain ⟨r, hr, hk⟩ := hdedup
    refine ⟨_, List.mem_map_of_mem _ hr, ?_, ?_⟩
    · simp [hk]
    · simp only [hk]
      rfl
  · intro n hn hcode
    unfold cleanNocsPre at hn
    rw [List.mem_map] at hn
    obtain ⟨r, hr, rfl⟩ := hn
    have hfil := (List.mem_filter.mp (dedupBy_subset hr)).2
    have hcode2 : r.code.map strTrim = some "ISR" := hcode
    obtain ⟨s, hs, htrim⟩ : ∃ s, r.code = some s ∧ strTrim s = "ISR" := by
      cases hc : r.code with
      | none => rw [hc] at hcode2; simp at hcode2
      | some s =>
        rw [hc] at hcode2
        simp only [Option.map_some'] at hcode2
        exact ⟨s, rfl, Option.some.inj hcode2⟩
    have hkey : nocFilterKey r.code = "ISR" := by
      rw [hs]
      show strUpper (strTrim ((some s).getD "nan")) = "ISR"
      rw [Option.getD_some, htrim]
      decide
    rw [hkey] at hfil
    simp at hfil

/-- Witness for C9 at a concrete one-row table. -/
theorem nocs_isr_divergence_w :
    (∃ n ∈ cleanNocsUtils [isrRawRow], n.code = "ISR" ∧ n.continent = "Europe") ∧
    (∀ n ∈ cleanNocsPre [isrRawRow], n.code ≠ some "ISR") :=
  nocs_isr_divergence [isrRawRow] ⟨isrRawRow, by decide, rfl⟩

/-- C3 (amended): after `clean_medals_total` of `utils/cleaning.py`, every
row satisfies total = gold + silver + bronze; a stored total that disagrees
with the recomputed sum is auto-corrected by recomputation.  (The
`OlympicDataCleaner` variant does not share this invariant; see the
counterexample.) -/
theorem medals_total_invariant (raw : List RawMedalsTotalRow) (r : MedalsTotalCleanRow)
    (h : r ∈ cleanMedalsTotal raw) : r.total = r.gold + r.silver + r.bronze :=
  (cleanMedalsTotal_invariant h).1

/-- Witness for C3: the utils cleaner corrects the stored total 5 to 1. -/
theorem medals_total_invariant_w :
    (⟨"FRA", "France", "France", 1, 0, 0, 1⟩ : MedalsTotalCleanRow).total =
      (⟨"FRA", "France", "France", 1, 0, 0, 1⟩ : MedalsTotalCleanRow).gold +
      (⟨"FRA", "France", "France", 1, 0, 0, 1⟩ : MedalsTotalCleanRow).silver +
      (⟨"FRA", "France", "France", 1, 0, 0, 1⟩ : MedalsTotalCleanRow).bronze :=
  medals_total_invariant [badTotalRawUtils] _ (by decide)

/-- Counterexample to C3: `OlympicDataCleaner.clean_medals_total` keeps the
stored total even when it disagrees with the sum of the medal columns, so
after cleaning a row can violate total = gold + silver + bronze. -/
theorem medals_total_pre_counterexample :
    ∃ r ∈ cleanMedalsTotalPre [badTotalRawPre],
      r.total ≠ r.gold + r.silver + r.bronze := by decide

/-- C10: in both cleaning variants, every retained medals_total row has a
strictly positive total: rows whose (possibly recomputed) total is zero are
removed. -/
theorem cleaned_totals_positive :
    (∀ (raw : List RawMedalsTotalRow) (r : MedalsTotalCleanRow),
        r ∈ cleanMedalsTotal raw → 0 < r.total) ∧
    (∀ (raw : List RawMedalsTotalPreRow) (r : MedalsTotalPreCleanRow),
        r ∈ cleanMedalsTotalPre raw → 0 < r.total) := by
  constructor
  · intro raw r h
    exact (cleanMedalsTotal_invariant h).2
  · intro raw r h
    unfold cleanMedalsTotalPre at h
    have := (List.mem_filter.mp h).2
    simpa using this

/-- Witness for C10 at concrete one-row tables for both variants. -/
theorem cleaned_totals_positive_w :
    0 < (⟨"FRA", "France", "France", 1, 0, 0, 1⟩ : MedalsTotalCleanRow).total ∧
    0 < (⟨some "FRA", 1, 0, 0, 5⟩ : MedalsTotalPreCleanRow).total :=
  ⟨cleaned_totals_positive.1 [badTotalRawUtils] _ (by decide),
   cleaned_totals_positive.2 [badTotalRawPre] _ (by decide)⟩

lemma leftJoin_fst_mem {ls : List α} {rs : List β} {hit : α → β → Bool}
    {p : α × Option β} (hp : p ∈ leftJoin ls rs hit) : p.1 ∈ ls := by
  unfold leftJoin at hp
  rw [mem_concatMap] at hp
  obtain ⟨a, ha, hb⟩ := hp
  cases hf : rs.filter (fun b => hit a b) with
  | nil =>
    rw [hf] at hb
    simp only [List.mem_singleton] at hb
    rw [hb]
    exact ha
  | cons m ms =>
    rw [hf] at hb
    rw [List.mem_map] at hb
    obtain ⟨b, _, rfl⟩ := hb
    exact ha

lemma leftJoin_complete {ls : List α} {rs : List β} {hit : α → β → Bool}
    {a : α} (ha : a ∈ ls) : ∃ p ∈ leftJoin ls rs hit, p.1 = a := by
  unfold leftJoin
  cases hf : rs.filter (fun b => hit a b) with
  | nil =>
    refine ⟨(a, none), mem_concatMap.mpr ⟨a, ha, ?_⟩, rfl⟩
    rw [hf]
    simp
  | cons m ms =>
    refine ⟨(a, some m), mem_concatMap.mpr ⟨a, ha, ?_⟩, rfl⟩
    rw [hf]
    simp

lemma leftJoin_snd {ls : List α} {rs : List β} {hit : α → β → Bool}
    {p : α × Option β} (hp : p ∈ leftJoin ls rs hit) :
    (p.2 = none ∧ ∀ b ∈ rs, hit p.1 b = false) ∨
    (∃ b ∈ rs, hit p.1 b = true ∧ p.2 = some b) := by
  unfold leftJoin at hp
  rw [mem_concatMap] at hp
  obtain ⟨a, ha, hb⟩ := hp
  cases hf : rs.filter (fun b => hit a b) with
  | nil =>
    rw [hf] at hb
    simp only [List.mem_singleton] at hb
    left
    rw [hb]
    refine ⟨rfl, fun b hbr => ?_⟩
    have := List.filter_eq_nil_iff.mp hf b hbr
    simpa using this
  | cons m ms =>
    rw [hf] at hb
    rw [List.mem_map] at hb
    obtain ⟨b, hbm, rfl⟩ := hb
    right
    have : b ∈ rs.filter (fun b => hit a b) := by rw [hf]; exact hbm
    have hb2 := List.mem_filter.mp this
    exact ⟨b, hb2.1, hb2.2, rfl⟩

lemma abs_roundHalfEven_sub (q : ℚ) : |(roundHalfEven q : ℚ) - q| ≤ 1 / 2 := by
  unfold roundHalfEven
  split
  case isTrue h =>
    split
    case isTrue _ =>
      have h2 : (⌊q⌋ : ℚ) - q = -(1 / 2) := by linarith
      rw [h2, abs_neg, abs_of_nonneg (by norm_num : (0 : ℚ) ≤ 1 / 2)]
    case isFalse _ =>
      have h2 : ((⌊q⌋ + 1 : ℤ) : ℚ) - q = 1 / 2 := by push_cast; linarith
      rw [h2, abs_of_nonneg (by norm_num : (0 : ℚ) ≤ 1 / 2)]
  case isFalse h =>
    rw [abs_sub_comm]
    exact abs_sub_round q

lemma round3_sub_le (q : ℚ) : |round3 q - q| ≤ 1 / 2000 := by
  have h := abs_roundHalfEven_sub (1000 * q)
  unfold round3
  have h2 : (roundHalfEven (1000 * q) : ℚ) / 1000 - q =
      ((roundHalfEven (1000 * q) : ℚ) - 1000 * q) / 1000 := by ring
  rw [h2, abs_div]
  have h3 : |(1000 : ℚ)| = 1000 := by norm_num
  rw [h3]
  linarith

lemma mem_createMedalsTotalEnriched {ct : List MedalsTotalCleanRow} {nocs : List NocCleanRow}
    {e : MedalsTotalEnrichedRow} (he : e ∈ createMedalsTotalEnriched ct nocs) :
    ∃ c ∈ ct, e.gold = c.gold ∧ e.silver = c.silver ∧ e.bronze = c.bronze ∧ e.total = c.total ∧
      e.gold_ratio = pandasRatio c.gold c.total ∧
      e.silver_ratio = pandasRatio c.silver c.total ∧
      e.bronze_ratio = pandasRatio c.bronze c.total := by
  unfold createMedalsTotalEnriched at he
  rw [(List.perm_insertionSort _ _).mem_iff] at he
  rw [List.mem_map] at he
  obtain ⟨r, hr, rfl⟩ := he
  rw [List.mem_map] at hr
  obtain ⟨p, hp, rfl⟩ := hr
  exact ⟨p.1, leftJoin_fst_mem hp, rfl, rfl, rfl, rfl, rfl, rfl, rfl⟩

/-- C4: in the medals-total enrichment of the cleaned table, every row has
a positive total, each ratio equals the medal count divided by the total
rounded to three decimals, the three ratios sum to 1 up to rounding
(within 3/2000), and a zero total would force all ratios to 0. -/
theorem ratio_wellformed (raw : List RawMedalsTotalRow) (nocs : List NocCleanRow)
    (e : MedalsTotalEnrichedRow) (he : e ∈ createMedalsTotalEnriched (cleanMedalsTotal raw) nocs) :
    0 < e.total ∧
    e.gold_ratio = some (round3 ((e.gold : ℚ) / (e.total : ℚ))) ∧
    e.silver_ratio = some (round3 ((e.silver : ℚ) / (e.total : ℚ))) ∧
    e.bronze_ratio = some (round3 ((e.bronze : ℚ) / (e.total : ℚ))) ∧
    (∃ g s b : ℚ, e.gold_ratio = some g ∧ e.silver_ratio = some s ∧ e.bronze_ratio = some b ∧
      |g + s + b - 1| ≤ 3 / 2000) ∧
    (e.total = 0 → e.gold_ratio = some 0 ∧ e.silver_ratio = some 0 ∧ e.bronze_ratio = some 0) := by
  obtain ⟨c, hc, hg, hs, hb, ht, hgr, hsr, hbr⟩ := mem_createMedalsTotalEnriched he
  obtain ⟨hsum, hpos⟩ := cleanMedalsTotal_invariant hc
  have htpos : 0 < e.total := ht ▸ hpos
  have hne : c.total ≠ 0 := ne_of_gt hpos
  have hgr2 : e.gold_ratio = some (round3 ((c.gold : ℚ) / (c.total : ℚ))) := by
    rw [hgr]; unfold pandasRatio; rw [if_neg hne]
  have hsr2 : e.silver_ratio = some (round3 ((c.silver : ℚ) / (c.total : ℚ))) := by
    rw [hsr]; unfold pandasRatio; rw [if_neg hne]
  have hbr2 : e.bronze_ratio = some (round3 ((c.bronze : ℚ) / (c.total : ℚ))) := by
    rw [hbr]; unfold pandasRatio; rw [if_neg hne]
  refine ⟨htpos, by rw [hg, ht]; exact hgr2, by rw [hs, ht]; exact hsr2, by rw [hb, ht]; exact hbr2,
    ⟨round3 ((c.gold : ℚ) / (c.total : ℚ)), round3 ((c.silver : ℚ) / (c.total : ℚ)),
     round3 ((c.bronze : ℚ) / (c.total : ℚ)), hgr2, hsr2, hbr2, ?_⟩,
    fun h0 => absurd h0 (ne_of_gt htpos)⟩
  have hQne : (c.total : ℚ) ≠ 0 := Int.cast_ne_zero.mpr hne
  have hone : (c.gold : ℚ) / (c.total : ℚ) + (c.silver : ℚ) / (c.total : ℚ) +
      (c.bronze : ℚ) / (c.total : ℚ) = 1 := by
    field_simp
    have : ((c.total : ℚ)) = (c.gold : ℚ) + (c.silver : ℚ) + (c.bronze : ℚ) := by
      exact_mod_cast hsum
    linarith
  have e1 := round3_sub_le ((c.gold : ℚ) / (c.total : ℚ))
  have e2 := round3_sub_le ((c.silver : ℚ) / (c.total : ℚ))
  have e3 := round3_sub_le ((c.bronze : ℚ) / (c.total : ℚ))
  set g := round3 ((c.gold : ℚ) / (c.total : ℚ))
  set s := round3 ((c.silver : ℚ) / (c.total : ℚ))
  set b := round3 ((c.bronze : ℚ) / (c.total : ℚ))
  have key : g + s + b - 1 =
      (g - (c.gold : ℚ) / (c.total : ℚ)) + (s - (c.silver : ℚ) / (c.total : ℚ)) +
      (b - (c.bronze : ℚ) / (c.total : ℚ)) := by
    rw [← hone]; ring
  calc |g + s + b - 1| = |(g - (c.gold : ℚ) / (c.total : ℚ)) +
        (s - (c.silver : ℚ) / (c.total : ℚ)) + (b - (c.bronze : ℚ) / (c.total : ℚ))| := by
        rw [key]
    _ ≤ |(g - (c.gold : ℚ) / (c.total : ℚ)) + (s - (c.silver : ℚ) / (c.total : ℚ))| +
        |b - (c.bronze : ℚ) / (c.total : ℚ)| := abs_add _ _
    _ ≤ 3 / 2000 := by
        have h12 := abs_add (g - (c.gold : ℚ) / (c.total : ℚ))
          (s - (c.silver : ℚ) / (c.total : ℚ))
        linarith

/-- Witness for C4 at a concrete one-row pipeline run. -/
theorem ratio_wellformed_w : 0 < enrichedSampleRow.total :=
  (ratio_wellformed [badTotalRawUtils] [] enrichedSampleRow (by with_unfolding_all decide)).1

/-- C1 (amended): the left join of `create_medals_enriched` never drops a
medal row; an enriched row's continent is the continent of a matching
cleaned NOC row (never null in that case, and "Unknown" whenever the NOC
code is absent from the static mapping), but a `country_code` with no
match in the cleaned NOC table yields a null continent, not "Unknown". -/
theorem medals_enriched_join (medals : List CleanMedalRow) (nocsRaw : List RawNocRow)
    (athletes : List AthleteJoinRow) :
    (∀ m ∈ medals, ∃ e ∈ createMedalsEnriched medals (cleanNocsUtils nocsRaw) athletes,
        e.name = m.name ∧ e.country_code = m.country_code ∧ e.event = m.event ∧
        e.medal_type = m.medal_type) ∧
    (∀ e ∈ createMedalsEnriched medals (cleanNocsUtils nocsRaw) athletes,
        (∃ n ∈ cleanNocsUtils nocsRaw, n.code = e.country_code ∧ e.continent = some n.continent) ∨
        (e.continent = none ∧ ∀ n ∈ cleanNocsUtils nocsRaw, n.code ≠ e.country_code)) ∧
    (∀ n ∈ cleanNocsUtils nocsRaw, continentMappingUtils.lookup n.code = none →
        n.continent = "Unknown") := by
  refine ⟨?_, ?_, ?_⟩
  · intro m hm
    have hj1 : ∃ p ∈ leftJoin medals (cleanNocsUtils nocsRaw)
        (fun m n => n.code == m.country_code), p.1 = m := leftJoin_complete hm
    obtain ⟨p, hp, hp1⟩ := hj1
    have hj2 : ∃ q ∈ leftJoin (leftJoin medals (cleanNocsUtils nocsRaw)
        (fun m n => n.code == m.country_code)) athletes
        (fun p a => a.code == p.1.code), q.1 = p := leftJoin_complete hp
    obtain ⟨q, hq, hq1⟩ := hj2
    refine ⟨_, List.mem_map_of_mem _ hq, ?_, ?_, ?_, ?_⟩ <;>
      simp [hq1, hp1]
  · intro e he
    unfold createMedalsEnriched at he
    rw [List.mem_map] at he
    obtain ⟨q, hq, rfl⟩ := he
    have hq1 := leftJoin_fst_mem hq
    rcases leftJoin_snd hq1 with ⟨hnone, hnomatch⟩ | ⟨n, hn, hhit, hsome⟩
    · right
      refine ⟨by simp [hnone], fun n hn heq => ?_⟩
      have := hnomatch n hn
      rw [heq] at this
      simp at this
    · left
      refine ⟨n, hn, ?_, by simp [hsome]⟩
      simpa using hhit
  · intro n hn hlook
    unfold cleanNocsUtils at hn
    rw [List.mem_map] at hn
    obtain ⟨r, hr, rfl⟩ := hn
    simp only at hlook ⊢
    rw [hlook]
    rfl

/-- Counterexample to C1: with an unmatched country code the enriched
medal row carries a null continent, not the claimed "Unknown". -/
theorem medals_enriched_counterexample :
    ∃ e ∈ createMedalsEnriched [xyzMedalRow] (cleanNocsUtils []) [],
      e.continent = none ∧ e.continent ≠ some "Unknown" := by decide

/-- Witness for C1 (amended) at a concrete one-row join. -/
theorem medals_enriched_join_w :
    ∃ e ∈ createMedalsEnriched [fraMedalRow] (cleanNocsUtils [fraRawNoc]) [],
      e.name = fraMedalRow.name ∧ e.country_code = fraMedalRow.country_code ∧
      e.event = fraMedalRow.event ∧ e.medal_type = fraMedalRow.medal_type :=
  (medals_enriched_join [fraMedalRow] [fraRawNoc] []).1 fraMedalRow (by decide)

/-- C5: with no filters selected, `get_filtered_medals_total` returns
exactly the statically computed `create_medals_total_enriched` table:
the same rows, hence the same per-country counts, ratios and ranks. -/
theorem filter_reagg_identity (ct : List MedalsTotalCleanRow) (nocs : List NocCleanRow)
    (medals : List MedalEnrichedRow) :
    getFilteredMedalsTotal noFilters medals (createMedalsTotalEnriched ct nocs) =
      createMedalsTotalEnriched ct nocs := by
  unfold getFilteredMedalsTotal applyFiltersMedalsTotal noFilters
  simp

/-- C6: on the filtered input (USA, Gold), (USA, Silver), (FRA, Gold) the
re-aggregation yields USA with gold 1, silver 1, bronze 0, total 2,
quality 5, rank 1 and FRA with gold 1, silver 0, bronze 0, total 1,
quality 3, rank 2 (ranks by total, with the quality ranks agreeing). -/
theorem scenario_three_rows :
    ∃ u ∈ reaggregateMedals [usaGoldRow, usaSilverRow, fraGoldRow],
      u.country_code = "USA" ∧ u.gold = 1 ∧ u.silver = 1 ∧ u.bronze = 0 ∧ u.total = 2 ∧
      u.medal_quality_score = 5 ∧ u.rank_by_total = 1 ∧ u.rank_by_quality = 1 ∧
      ∃ fr ∈ reaggregateMedals [usaGoldRow, usaSilverRow, fraGoldRow],
        fr.country_code = "FRA" ∧ fr.gold = 1 ∧ fr.silver = 0 ∧ fr.bronze = 0 ∧ fr.total = 1 ∧
        fr.medal_quality_score = 3 ∧ fr.rank_by_total = 2 ∧ fr.rank_by_quality = 2 := by
  with_unfolding_all decide

lemma assignRanks_map_rank (n : Nat) (l : List AthleteSummaryRow) :
    (assignRanks n l).map (fun r => r.rank) = List.range' n l.length := by
  induction l generalizing n with
  | nil => simp [assignRanks]
  | cons r rs ih =>
    simp only [assignRanks, List.map_cons, List.length_cons, List.range'_succ]
    rw [ih]

lemma assignRanks_length (n : Nat) (l : List AthleteSummaryRow) :
    (assignRanks n l).length = l.length := by
  induction l generalizing n with
  | nil => rfl
  | cons r rs ih => simp [assignRanks, ih]

lemma mem_assignRanks {b : AthleteSummaryRow} :
    ∀ {l : List AthleteSummaryRow} {n : Nat}, b ∈ assignRanks n l →
      ∃ a ∈ l, ∃ m, b = { a with rank := m } := by
  intro l
  induction l with
  | nil => intro n hb; simp [assignRanks] at hb
  | cons x xs ih =>
    intro n hb
    simp only [assignRanks, List.mem_cons] at hb
    rcases hb with rfl | hb2
    · exact ⟨x, List.mem_cons_self .., n, rfl⟩
    · obtain ⟨a, ha, m, rfl⟩ := ih hb2
      exact ⟨a, List.mem_cons_of_mem _ ha, m, rfl⟩

lemma assignRanks_pairwise {l : List AthleteSummaryRow} (n : Nat)
    (h : List.Pairwise summaryRel l) : List.Pairwise summaryRel (assignRanks n l) := by
  induction l generalizing n with
  | nil => simp [assignRanks]
  | cons r rs ih =>
    rw [List.pairwise_cons] at h
    obtain ⟨hr, hrs⟩ := h
    simp only [assignRanks, List.pairwise_cons]
    refine ⟨?_, ih (n + 1) hrs⟩
    intro b hb
    obtain ⟨a, ha, m, rfl⟩ := mem_assignRanks hb
    have := hr a ha
    unfold summaryRel at *
    exact this

/-- C2 (amended): in the athlete medal summary the `rank` column is the
positional sequence 1..N down the output, which is sorted by
(total_medals descending, then medal_quality_score descending); athletes
tied on both keys therefore receive distinct consecutive ranks, not a
shared tie-aware rank. -/
theorem athlete_rank_positional (medalists : List MedalistRow) (athletes : List AthleteInfoRow) :
    ((createAthleteMedalsSummary medalists athletes).map (fun r => r.rank) =
      List.range' 1 (createAthleteMedalsSummary medalists athletes).length) ∧
    List.Pairwise summaryRel (createAthleteMedalsSummary medalists athletes) := by
  constructor
  · simp only [createAthleteMedalsSummary]
    rw [assignRanks_map_rank, assignRanks_length]
  · simp only [createAthleteMedalsSummary]
    exact assignRanks_pairwise 1 (List.sorted_insertionSort summaryRel _)

/-- Counterexample to C2: two athletes with equal total medals and equal
quality scores receive the distinct ranks 1 and 2, not the same rank. -/
theorem athlete_rank_counterexample :
    ∃ r1 ∈ createAthleteMedalsSummary [aliceMedalist, bertaMedalist] [],
      ∃ r2 ∈ createAthleteMedalsSummary [aliceMedalist, bertaMedalist] [],
        r1.total_medals = r2.total_medals ∧
        r1.medal_quality_score = r2.medal_quality_score ∧
        r1.rank = 1 ∧ r2.rank = 2 := by with_unfolding_all decide

/-- Counterexample to C7: with only `athletes.csv` missing, `main` of
`utils/cleaning.py` aborts at the first cleaner and never cleans the nine
other entities whose files exist — one missing file does halt that run. -/
theorem pipeline_halt_counterexample :
    mainUtils availNoAthletes = Except.error Entity.athletes ∧
    ∀ l, mainUtils availNoAthletes ≠ Except.ok l := by
  constructor
  · rfl
  · intro l h
    rw [show mainUtils availNoAthletes = Except.error Entity.athletes from rfl] at h
    exact Except.noConfusion h

lemma loadAllDataGo_mem (avail : Entity → Bool) (e : Entity) :
    ∀ order : List Entity, e ∈ order →
      ((avail e = true ∨ e = Entity.schedules) → e ∈ (loadAllDataGo avail order).1) ∧
      (avail e = false → e ≠ Entity.schedules → e ∈ (loadAllDataGo avail order).2) := by
  intro order
  induction order with
  | nil => intro h; simp at h
  | cons x xs ih =>
    intro hmem
    rcases List.mem_cons.mp hmem with rfl | h2
    · constructor
      · intro hok
        have : (avail e || e == Entity.schedules) = true := by
          rcases hok with h | h
          · simp [h]
          · simp [h]
        simp only [loadAllDataGo, this, if_pos]
        exact List.mem_cons_self ..
      · intro hf hne
        have : (avail e || e == Entity.schedules) = false := by
          simp [hf, hne]
        simp only [loadAllDataGo, this]
        simp
    · constructor
      · intro hok
        unfold loadAllDataGo
        split
        · exact List.mem_cons_of_mem _ ((ih h2).1 hok)
        · exact (ih h2).1 hok
      · intro hf hne
        unfold loadAllDataGo
        split
        · exact (ih h2).2 hf hne
        · exact List.mem_cons_of_mem _ ((ih h2).2 hf hne)

lemma mem_loadOrder (e : Entity) : e ∈ loadOrder := by
  cases e <;> decide

/-- C7 (amended): in `load_all_data` of `pre-traitement/cleaning.py` a
missing raw file only skips that entity with a recorded warning, and every
entity whose file is present is still cleaned, whatever other files are
missing.  (`main` of `utils/cleaning.py` has no such handling and aborts at
the first missing file; see the counterexample.) -/
theorem load_partial_failure (avail : Entity → Bool) (e : Entity) :
    (avail e = true → e ∈ (loadAllData avail).1) ∧
    (avail e = false → e ≠ Entity.schedules → e ∈ (loadAllData avail).2) := by
  have h := loadAllDataGo_mem avail e loadOrder (mem_loadOrder e)
  exact ⟨fun ht => h.1 (Or.inl ht), h.2⟩

/-- Witness for C7 (amended): with `athletes.csv` missing, medals are still
cleaned and athletes are recorded as a warning. -/
theorem load_partial_failure_w :
    Entity.medals ∈ (loadAllData availNoAthletes).1 ∧
    Entity.athletes ∈ (loadAllData availNoAthletes).2 :=
  ⟨(load_partial_failure availNoAthletes Entity.medals).1 rfl,
   (load_partial_failure availNoAthletes Entity.athletes).2 rfl (by decide)⟩

/-- Counterexample to C8: for a birth date of 2004-01-20 (7493 days before
2024-07-26, 7493/365.25 = 20.514...) the code computes age 21 while the
claimed floor formula gives 20. -/
theorem age_rounding_counterexample :
    ageDays 2004 1 20 = 7493 ∧
    ageUtils 2004 1 20 = 21 ∧
    (⌊(ageDays 2004 1 20 : ℚ) / (365.25 : ℚ)⌋ : ℤ) = 20 ∧
    ageUtils 2004 1 20 ≠ ⌊(ageDays 2004 1 20 : ℚ) / (365.25 : ℚ)⌋ := by
  refine ⟨rfl, ?_, ?_, ?_⟩ <;> with_unfolding_all decide

lemma age_no_half (dd : ℤ) :
    (dd : ℚ) / (365.25 : ℚ) - (⌊(dd : ℚ) / (365.25 : ℚ)⌋ : ℚ) ≠ 1 / 2 := by
  intro h
  set k := ⌊(dd : ℚ) / (365.25 : ℚ)⌋ with hk
  have h365 : (365.25 : ℚ) = 1461 / 4 := by norm_num
  have h2 : (dd : ℚ) / (1461 / 4) = (k : ℚ) + 1 / 2 := by
    rw [← h365]
    linarith
  have h3 : (8 * dd : ℚ) = 2922 * (k : ℚ) + 1461 := by
    field_simp at h2
    linarith
  have h4 : (8 * dd : ℤ) = 2922 * k + 1461 := by exact_mod_cast h3
  omega

/-- C8 (amended): for every parsed birth date the derived age is
days/365.25 rounded to the nearest integer (pandas `.round(0)`,
half-to-even, but exact halves cannot arise), not its floor; both cleaning
variants use this same formula. -/
theorem age_is_rounded (y m d : Nat) :
    ageUtils y m d = round ((ageDays y m d : ℚ) / (365.25 : ℚ)) ∧
    agePre y m d = round ((ageDays y m d : ℚ) / (365.25 : ℚ)) := by
  have h : roundHalfEven ((ageDays y m d : ℚ) / (365.25 : ℚ)) =
      round ((ageDays y m d : ℚ) / (365.25 : ℚ)) := by
    unfold roundHalfEven
    rw [if_neg (age_no_half (ageDays y m d))]
  exact ⟨h, h⟩
